import Mathlib

/-!
Verification of the PRIP (Protein Residue Interaction Parser) core against its
specification.  The definitions below are a shallow embedding of the rule
validation in `prip_parsecriteria.py` (`ParserCriteria.cache_rules`) and of the
pairwise evaluator in `prip_parser.py` (`ProteinParser.run_parser`,
`ProteinParser._matches_rule`).  Rule-entry widgets are modelled by the raw
strings their `get()` method returns; BioPython's Euclidean atom distance is an
external collaborator and is modelled by an explicit distance function on
rational coordinate triples.
-/

namespace Prip

/-- Accepted amino-acid abbreviations (3-letter and 1-letter codes), from
`config.ACCEPTED_AMINO_ACIDS`. -/
def ACCEPTED_AMINO_ACIDS : List String :=
  ["ALA", "A", "ARG", "R", "ASN", "N", "ASP", "D", "CYS", "C",
   "GLU", "E", "GLN", "Q", "GLY", "G", "HIS", "H", "ILE", "I",
   "LEU", "L", "LYS", "K", "MET", "M", "PHE", "F", "PRO", "P",
   "SER", "S", "THR", "T", "TRP", "W", "TYR", "Y", "VAL", "V"]

/-- Leading and trailing whitespace removed: model of Python's `str.strip()`.
(Defined over the character list so that proofs can evaluate it; the
built-in `String.trim` is extensionally the same but does not reduce in the
kernel.) -/
def stripChars (cs : List Char) : List Char :=
  ((cs.dropWhile Char.isWhitespace).reverse.dropWhile Char.isWhitespace).reverse

/-- Model of Python's `str.strip()`. -/
def pyStrip (s : String) : String := String.mk (stripChars s.data)

/-- Model of Python's `str.upper()` (ASCII). -/
def pyUpper (s : String) : String := String.mk (s.data.map Char.toUpper)

/-- Helper for `splitComma`: accumulates the current field. -/
def splitCommaAux : List Char → List Char → List (List Char)
  | [], acc => [acc.reverse]
  | c :: rest, acc =>
    if c = ',' then acc.reverse :: splitCommaAux rest []
    else splitCommaAux rest (c :: acc)

/-- Model of Python's `str.split(sep=",")`: the empty string yields `[""]`,
adjacent separators yield empty fields. -/
def splitComma (s : String) : List String :=
  (splitCommaAux s.data []).map String.mk

/-- Numeric value of a list of decimal digit characters. -/
def digitsVal (cs : List Char) : Nat :=
  cs.foldl (fun n c => 10 * n + (c.toNat - '0'.toNat)) 0

/-- Model of Python's builtin `float(...)` on already-stripped input: optional
sign, decimal digits with an optional fractional part, and an optional decimal
exponent.  Infinities, NaN and underscore digit separators have no rational
counterpart and are not modelled. -/
def parseFloat? (s : String) : Option ℚ :=
  let cs := s.data
  let sgn : ℚ := match cs with
    | '-' :: _ => -1
    | _ => 1
  let cs1 : List Char := match cs with
    | '+' :: r => r
    | '-' :: r => r
    | _ => cs
  let intDigits := cs1.takeWhile Char.isDigit
  let rest1 := cs1.dropWhile Char.isDigit
  let fracDigits : List Char := match rest1 with
    | '.' :: r => r.takeWhile Char.isDigit
    | _ => []
  let rest2 : List Char := match rest1 with
    | '.' :: r => r.dropWhile Char.isDigit
    | _ => rest1
  if intDigits.isEmpty && fracDigits.isEmpty then none
  else
    let mant : ℚ :=
      (digitsVal intDigits : ℚ) + (digitsVal fracDigits : ℚ) / ((10 : ℚ) ^ fracDigits.length)
    match rest2 with
    | [] => some (sgn * mant)
    | e :: r =>
      if e = 'e' || e = 'E' then
        let epos : Bool := match r with
          | '-' :: _ => false
          | _ => true
        let r1 : List Char := match r with
          | '+' :: rr => rr
          | '-' :: rr => rr
          | _ => r
        let expDigits := r1.takeWhile Char.isDigit
        let rest3 := r1.dropWhile Char.isDigit
        if expDigits.isEmpty || !rest3.isEmpty then none
        else
          let p : ℚ := (10 : ℚ) ^ digitsVal expDigits
          some (sgn * (if epos then mant * p else mant / p))
      else none

/-- The `distance` field of a cached rule: a parsed float, or the unparsed raw
widget text when `float(...)` raised `ValueError`
(`prip_parsecriteria.py` lines 117-127). -/
inductive DistVal where
  | num (q : ℚ)
  | raw (s : String)
deriving Repr, DecidableEq

/-- A cached rule as produced by `ParserCriteria.cache_rules`: the dictionary
with keys `name`, `distance`, `grp1`, `grp2`, `parsable`. -/
structure CachedRule where
  name : String
  distance : DistVal
  grp1 : List String
  grp2 : List String
  parsable : String
deriving Repr, DecidableEq

/-- A raw rule as read from the four entry widgets: the strings returned by
`get()` for name, group 1, group 2 and distance. -/
structure RawRule where
  name : String
  grp1 : String
  grp2 : String
  distance : String
deriving Repr, DecidableEq

/-- Tokens of a group string: split on `","`, each token stripped and
upper-cased (`prip_parsecriteria.py` lines 138-139). -/
def groupTokens (g : String) : List String :=
  (splitComma g).map (fun t => pyUpper (pyStrip t))

/-- A token violates the accepted set when it is non-empty and not an accepted
abbreviation (the condition of line 144). -/
def violatesAccepted (t : String) : Bool :=
  decide (t ≠ "") && !(ACCEPTED_AMINO_ACIDS.contains t)

/-- The abbreviation-checking loop of lines 143-147: it stops (`break`) at the
first violating token, returning it when one exists. -/
def firstInvalidAbbrev : List String → Option String
  | [] => none
  | a :: rest => if violatesAccepted a then some a else firstInvalidAbbrev rest

/-- The invalid-abbreviation warnings logged by the loop of lines 143-147:
because of the `break`, at most the first violating token is reported. -/
def reportedInvalidAbbrevs (toks : List String) : List String :=
  (firstInvalidAbbrev toks).toList

/-- Processing of one group string (lines 130-152 for one of `grp1`, `grp2`):
returns the stored token list together with whether the group kept the rule
parsable.  Widget access on plain strings cannot raise, so the
`except` branch of line 149 is unreachable in this model. -/
def cacheGroup (gRaw : String) : List String × Bool :=
  let g := pyStrip gRaw
  if g = "" then ([], false)
  else
    let toks := groupTokens g
    (toks, (firstInvalidAbbrev toks).isNone)

/-- Validation of a single raw rule (the body of the loop in
`ParserCriteria.cache_rules`, lines 103-155).  `pos` is the number of rules
already cached, i.e. the rule's 0-based position in the set; it feeds the
auto-generated placeholder name `"Rule N"`. -/
def cacheRule (pos : Nat) (raw : RawRule) : CachedRule :=
  let name0 := pyStrip raw.name
  let nm := if name0 = "" then "Rule " ++ toString (pos + 1) else name0
  let dv : DistVal := match parseFloat? (pyStrip raw.distance) with
    | some q => DistVal.num q
    | none => DistVal.raw raw.distance
  let distOk : Bool := match parseFloat? (pyStrip raw.distance) with
    | some q => decide (0 < q)
    | none => false
  let g1 := cacheGroup raw.grp1
  let g2 := cacheGroup raw.grp2
  { name := nm, distance := dv, grp1 := g1.1, grp2 := g2.1,
    parsable := if distOk && g1.2 && g2.2 then "yes" else "no" }

/-- `ParserCriteria.cache_rules`: every entry-widget rule is validated and
appended (valid or not); the position used for placeholder names equals the
index because exactly one cached rule is appended per input rule. -/
def cache_rules (raws : List RawRule) : List CachedRule :=
  raws.enum.map (fun p => cacheRule p.1 p.2)

/-- A residue of the selected chain, as exposed by the structure provider:
`get_resname()`, the sequence number `get_id()[1]`, and the optional CA atom
coordinates (absent when indexing the residue with `'CA'` raises `KeyError`). -/
structure Residue where
  resname : String
  resid : Int
  ca : Option (ℚ × ℚ × ℚ)
deriving Repr, DecidableEq

/-- A chain is the provider's ordered residue sequence. -/
abbrev Chain := List Residue

/-- A loaded structure: models indexed by id, each holding chains indexed by
id, mirroring `structure[model][chain]` dictionary lookup. -/
structure PStructure where
  models : List (Int × List (String × Chain))
deriving Repr, DecidableEq

/-- `self.protein_structure[self.selected_model][self.selected_chain]`:
`none` models the `KeyError` caught at line 183 of `prip_parser.py`. -/
def lookupChain (s : PStructure) (m : Int) (c : String) : Option Chain :=
  match s.models.find? (fun p => p.1 == m) with
  | none => none
  | some mdl =>
    match mdl.2.find? (fun p => p.1 == c) with
    | none => none
    | some ch => some ch.2

/-- BioPython residue comparison `residue1 < residue2`, which orders residues
of a chain by sequence number. -/
def residLt (r1 r2 : Residue) : Bool :=
  decide (r1.resid < r2.resid)

/-- The double loop of `run_parser` lines 138-140: for every `residue1` in
chain order, every `residue2` of the chain with
`residue1 != residue2 and residue1 < residue2`. -/
def enumeratePairs (chain : Chain) : List (Residue × Residue) :=
  chain.flatMap (fun r1 =>
    (chain.filter (fun r2 => decide (r1 ≠ r2) && residLt r1 r2)).map (fun r2 => (r1, r2)))

/-- The externally supplied Euclidean distance on CA coordinates (BioPython's
`atom1 - atom2`). -/
abbrev Dist3 := (ℚ × ℚ × ℚ) → (ℚ × ℚ × ℚ) → ℚ

/-- Lines 141-146: compute the CA-CA distance of a pair, or skip the pair
(`continue`) when either residue lacks the CA atom. -/
def evalPair (dist : Dist3) (p : Residue × Residue) : Option (Residue × Residue × ℚ) :=
  match p.1.ca, p.2.ca with
  | some c1, some c2 => some (p.1, p.2, dist c1 c2)
  | _, _ => none

/-- The successfully evaluated pairs of a candidate-pair list, in order. -/
def evaluatedPairsFrom (dist : Dist3) (ps : List (Residue × Residue)) :
    List (Residue × Residue × ℚ) :=
  ps.filterMap (evalPair dist)

/-- The float comparison `distance < max_distance` of `_matches_rule`.  A
parsable rule always stores a numeric distance (`cacheRule_parsable_num`
below), so the `raw` branch is never reached during evaluation; it is
modelled as no-match. -/
def distLtMax (d : ℚ) (maxDistance : DistVal) : Bool :=
  match maxDistance with
  | DistVal.num q => decide (d < q)
  | DistVal.raw _ => false

/-- `ProteinParser._matches_rule` (lines 187-206). -/
def matchesRule (res1 res2 : String) (distance : ℚ) (rule : CachedRule) : Bool :=
  (rule.grp1.contains res1 && rule.grp2.contains res2 && distLtMax distance rule.distance) ||
  (rule.grp2.contains res1 && rule.grp1.contains res2 && distLtMax distance rule.distance)

/-- One row of the comprehensive table: `line_data` of lines 154-163 —
residue names, stringified sequence ids, the distance, and one marker per
parsable rule (`true` stands for `'X'`, `false` for `NaN`). -/
structure PairRow where
  res1Name : String
  res1Id : String
  res2Name : String
  res2Id : String
  distance : ℚ
  markers : List Bool
deriving Repr, DecidableEq

/-- `line_data[:5]`: the base columns of a row, without rule markers. -/
structure BaseRow where
  res1Name : String
  res1Id : String
  res2Name : String
  res2Id : String
  distance : ℚ
deriving Repr, DecidableEq

/-- Build the comprehensive-table row of one evaluated pair. -/
def rowOf (prules : List CachedRule) (e : Residue × Residue × ℚ) : PairRow :=
  { res1Name := e.1.resname, res1Id := toString e.1.resid,
    res2Name := e.2.1.resname, res2Id := toString e.2.1.resid,
    distance := e.2.2,
    markers := prules.map (fun rule => matchesRule e.1.resname e.2.1.resname e.2.2 rule) }

/-- Build the `line_data[:5]` row of one evaluated pair. -/
def baseRowOf (e : Residue × Residue × ℚ) : BaseRow :=
  { res1Name := e.1.resname, res1Id := toString e.1.resid,
    res2Name := e.2.1.resname, res2Id := toString e.2.1.resid,
    distance := e.2.2 }

/-- The comprehensive rows produced from a candidate-pair list. -/
def pairRowsFrom (dist : Dist3) (prules : List CachedRule) (ps : List (Residue × Residue)) :
    List PairRow :=
  (evaluatedPairsFrom dist ps).map (rowOf prules)

/-- `final_result_list` of a run over a chain. -/
def pairRows (dist : Dist3) (prules : List CachedRule) (chain : Chain) : List PairRow :=
  pairRowsFrom dist prules (enumeratePairs chain)

/-- The per-rule outcome accumulated by lines 157-160 and finalised at lines
173-177: the rule, its match counter, and the matched base rows in pair order.
The counter equals the number of stored rows because both are updated together. -/
structure RuleResult where
  rule : CachedRule
  counter : Nat
  results : List BaseRow
deriving Repr, DecidableEq

/-- Per-rule accumulation over a chain. -/
def ruleResultOf (dist : Dist3) (chain : Chain) (rule : CachedRule) : RuleResult :=
  let matched := (evaluatedPairsFrom dist (enumeratePairs chain)).filter
    (fun e => matchesRule e.1.resname e.2.1.resname e.2.2 rule)
  { rule := rule, counter := matched.length, results := matched.map baseRowOf }

/-- Lines 128-135: keep exactly the rules whose `parsable` value is `"yes"`;
`none` models `rule_cache=None`, and an empty list is treated identically
because Python's `if rule_cache:` is false for both. -/
def selectParsable (rule_cache : Option (List CachedRule)) : List CachedRule :=
  match rule_cache with
  | none => []
  | some rc => rc.filter (fun r => r.parsable == "yes")

/-- The fixed five leading column labels (line 125). -/
def baseColumns : List String :=
  ["Residue 1", "Residue 1 id", "Residue 2", "Residue 2 id", "Distance"]

/-- The summary text of lines 172-179. -/
def ruleSummaryText (rrs : List RuleResult) : String :=
  rrs.foldl (fun acc rr => acc ++ rr.rule.name ++ ": " ++ toString rr.counter ++ "\n")
    "Matches:\n"

/-- The fields of `ProteinParser` touched by `run_parser`: the comprehensive
table `parse_results` (columns plus rows; `none` before any successful run),
`rule_results` and `rule_summary`. -/
structure ParserState where
  parse_results : Option (List String × List PairRow)
  rule_results : List RuleResult
  rule_summary : String
deriving Repr, DecidableEq

/-- `ProteinParser.run_parser` (lines 107-185).  Returns the updated state and
the boolean result.  With no structure loaded it returns `False` untouched;
otherwise `self.rule_results` is cleared first, then the model/chain lookup
either fails (`KeyError`/`IndexError` caught at line 183, returning `False`
with `parse_results` untouched) or the evaluation runs to completion. -/
def runParser (dist : Dist3) (st : ParserState) (protein_structure : Option PStructure)
    (selected_model : Int) (selected_chain : String)
    (rule_cache : Option (List CachedRule)) : ParserState × Bool :=
  match protein_structure with
  | none => (st, false)
  | some strc =>
    let st1 : ParserState := { st with rule_results := [] }
    match lookupChain strc selected_model selected_chain with
    | none => (st1, false)
    | some chain =>
      let prules := selectParsable rule_cache
      let cols := baseColumns ++ prules.map (fun r => r.name)
      let rows := pairRows dist prules chain
      let rrs := prules.map (ruleResultOf dist chain)
      ({ parse_results := some (cols, rows),
         rule_results := rrs,
         rule_summary := ruleSummaryText rrs }, true)

/-- The reference enumeration: for each position `i`, the pairs `(l[i], l[j])`
for all `j > i`, in order. -/
def canonicalPairs : List Residue → List (Residue × Residue)
  | [] => []
  | x :: xs => xs.map (fun y => (x, y)) ++ canonicalPairs xs

/-! Concrete fixtures, used to instantiate the theorems below.  `exChain` is
the worked example of the specification: ALA#1, GLY#2, SER#3 with CA-CA
distances d(1,2)=3, d(1,3)=5, d(2,3)=2 under the 1-dimensional distance
`exDist`, and rule R1 = ({ALA}, {GLY, SER}, 4). -/

/-- A concrete distance function standing in for the external Euclidean
distance. -/
def exDist : Dist3 := fun a b => b.1 - a.1

/-- A residue with a CA atom at abscissa `x`. -/
def exRes (n : String) (i : Int) (x : ℚ) : Residue :=
  { resname := n, resid := i, ca := some (x, 0, 0) }

/-- The spec's example chain. -/
def exChain : Chain := [exRes "ALA" 1 0, exRes "GLY" 2 3, exRes "SER" 3 5]

/-- A structure holding `exChain` as chain "A" of model 0. -/
def exStructure : PStructure := { models := [(0, [("A", exChain)])] }

/-- The spec's example rule R1. -/
def exRule : CachedRule :=
  { name := "R1", distance := DistVal.num 4, grp1 := ["ALA"], grp2 := ["GLY", "SER"],
    parsable := "yes" }

/-- A state left over from a previous successful run. -/
def exPrevState : ParserState :=
  { parse_results := some (baseColumns, []),
    rule_results := [{ rule := exRule, counter := 0, results := [] }],
    rule_summary := "old" }

/-- A residue lacking the CA atom. -/
def exResNoCA : Residue := { resname := "GLY", resid := 2, ca := none }

/-- The example chain with the middle residue's CA atom missing. -/
def exChainNoCA : Chain := [exRes "ALA" 1 0, exResNoCA, exRes "SER" 3 5]

/-- A structure holding `exChainNoCA` as chain "A" of model 0. -/
def exStructureNoCA : PStructure := { models := [(0, [("A", exChainNoCA)])] }

/-- A raw rule whose group 1 holds two invalid abbreviations. -/
def exRawTwoBad : RawRule := { name := "r", grp1 := "XX,YY", grp2 := "ALA", distance := "4.0" }

/-- A raw rule whose group 1 is blank. -/
def exRawEmptyGrp : RawRule := { name := "r", grp1 := " ", grp2 := "ALA", distance := "4.0" }

/-- A raw rule with a non-numeric distance. -/
def exRawBadDist : RawRule := { name := "r", grp1 := "ALA", grp2 := "GLY", distance := "abc" }

/-- A raw rule with a negative distance. -/
def exRawNegDist : RawRule := { name := "r", grp1 := "ALA", grp2 := "GLY", distance := "-1" }

/-- A raw rule with a blank name. -/
def exRawNoName : RawRule := { name := "  ", grp1 := "ALA", grp2 := "GLY", distance := "4.0" }

/-- A cached rule marked unparsable, as `cache_rules` leaves one after a
failed validation. -/
def exRuleInvalid : CachedRule :=
  { name := "Bad", distance := DistVal.raw "abc", grp1 := [], grp2 := ["ALA"],
    parsable := "no" }

/-- C1: for every residue pair and every rule carrying a parsed numeric
threshold (as every parsable rule does), `_matches_rule` holds iff one
residue's code is in `grp1` and the other's in `grp2` (either orientation)
and the distance is strictly below the threshold; a pair exactly at the
threshold never matches; and swapping the two groups, or the two residues,
leaves the outcome unchanged. -/
theorem c1_matchesRule_correct (res1 res2 : String) (d : ℚ) (rule : CachedRule) (q : ℚ)
    (hq : rule.distance = DistVal.num q) :
    (matchesRule res1 res2 d rule = true ↔
      (((res1 ∈ rule.grp1 ∧ res2 ∈ rule.grp2) ∨ (res1 ∈ rule.grp2 ∧ res2 ∈ rule.grp1)) ∧ d < q))
    ∧ (d = q → matchesRule res1 res2 d rule = false)
    ∧ matchesRule res1 res2 d { rule with grp1 := rule.grp2, grp2 := rule.grp1 }
        = matchesRule res1 res2 d rule
    ∧ matchesRule res2 res1 d rule = matchesRule res1 res2 d rule := by
  refine ⟨?_, ?_, ?_, ?_⟩
  · simp [matchesRule, distLtMax, hq, List.contains, List.elem_iff]
    tauto
  · intro hd
    simp [matchesRule, distLtMax, hq, hd]
  · simp only [matchesRule]
    exact Bool.or_comm _ _
  · simp only [matchesRule]
    rw [Bool.or_comm]
    ac_rfl

/-- Witness for C1 at the spec's example: rule R1, pair (ALA, GLY) at
distance 3 against threshold 4. -/
theorem c1_matchesRule_correct_witness :
    (matchesRule "ALA" "GLY" 3 exRule = true ↔
      ((("ALA" ∈ exRule.grp1 ∧ "GLY" ∈ exRule.grp2)
          ∨ ("ALA" ∈ exRule.grp2 ∧ "GLY" ∈ exRule.grp1)) ∧ (3 : ℚ) < 4))
    ∧ ((3 : ℚ) = 4 → matchesRule "ALA" "GLY" 3 exRule = false)
    ∧ matchesRule "ALA" "GLY" 3 { exRule with grp1 := exRule.grp2, grp2 := exRule.grp1 }
        = matchesRule "ALA" "GLY" 3 exRule
    ∧ matchesRule "GLY" "ALA" 3 exRule = matchesRule "ALA" "GLY" 3 exRule :=
  c1_matchesRule_correct "ALA" "GLY" 3 exRule 4 rfl

/-- C4: with a structure loaded, `run_parser` fails (returns `False`) exactly
when the selected model/chain does not exist in it, and on such a failure the
comprehensive table is left untouched; no per-pair condition can cause a
failure. -/
theorem c4_run_fails_iff_selection_missing (dist : Dist3) (st : ParserState)
    (strc : PStructure) (m : Int) (c : String) (rc : Option (List CachedRule)) :
    ((runParser dist st (some strc) m c rc).2 = false ↔ lookupChain strc m c = none)
    ∧ (lookupChain strc m c = none →
        (runParser dist st (some strc) m c rc).1.parse_results = st.parse_results) := by
  cases h : lookupChain strc m c <;> simp [runParser, h]

/-- Witness for C4: selecting the missing chain "B" of the example structure
fails, and selecting chain "A" succeeds. -/
theorem c4_run_fails_iff_selection_missing_witness :
    (((runParser exDist exPrevState (some exStructure) 0 "B" (some [exRule])).2 = false ↔
        lookupChain exStructure 0 "B" = none)
      ∧ (lookupChain exStructure 0 "B" = none →
          (runParser exDist exPrevState (some exStructure) 0 "B"
              (some [exRule])).1.parse_results = exPrevState.parse_results))
    ∧ (((runParser exDist exPrevState (some exStructure) 0 "A" (some [exRule])).2 = false ↔
        lookupChain exStructure 0 "A" = none)
      ∧ (lookupChain exStructure 0 "A" = none →
          (runParser exDist exPrevState (some exStructure) 0 "A"
              (some [exRule])).1.parse_results = exPrevState.parse_results)) :=
  ⟨c4_run_fails_iff_selection_missing exDist exPrevState exStructure 0 "B" (some [exRule]),
   c4_run_fails_iff_selection_missing exDist exPrevState exStructure 0 "A" (some [exRule])⟩

/-- C10: a run that fails because the selection is missing has already reset
`rule_results` to the empty list, while `parse_results` (and `rule_summary`)
keep their previous values — the failure is not atomic across the result
fields. -/
theorem c10_failed_run_clears_rule_results (dist : Dist3) (st : ParserState)
    (strc : PStructure) (m : Int) (c : String) (rc : Option (List CachedRule))
    (h : lookupChain strc m c = none) :
    (runParser dist st (some strc) m c rc).2 = false
    ∧ (runParser dist st (some strc) m c rc).1.rule_results = []
    ∧ (runParser dist st (some strc) m c rc).1.parse_results = st.parse_results
    ∧ (runParser dist st (some strc) m c rc).1.rule_summary = st.rule_summary := by
  simp [runParser, h]

/-- Witness for C10: starting from a state holding results of a previous
successful run, a run against the missing chain "B" empties `rule_results`
but keeps the previous comprehensive table. -/
theorem c10_failed_run_clears_rule_results_witness :
    (runParser exDist exPrevState (some exStructure) 0 "B" (some [exRule])).2 = false
    ∧ (runParser exDist exPrevState (some exStructure) 0 "B" (some [exRule])).1.rule_results = []
    ∧ (runParser exDist exPrevState (some exStructure) 0 "B"
        (some [exRule])).1.parse_results = exPrevState.parse_results
    ∧ (runParser exDist exPrevState (some exStructure) 0 "B"
        (some [exRule])).1.rule_summary = exPrevState.rule_summary :=
  c10_failed_run_clears_rule_results exDist exPrevState exStructure 0 "B" (some [exRule])
    (by decide)

/-- The abbreviation loop reports exactly the first violating token: its
singleton report is the one-element prefix of the violating tokens. -/
theorem firstInvalidAbbrev_toList (toks : List String) :
    (firstInvalidAbbrev toks).toList = (toks.filter violatesAccepted).take 1 := by
  induction toks with
  | nil => rfl
  | cons a l ih =>
    by_cases h : violatesAccepted a = true
    · simp [firstInvalidAbbrev, h, List.filter_cons]
    · simp only [Bool.not_eq_true] at h
      simp [firstInvalidAbbrev, h, List.filter_cons, ih]

/-- The abbreviation loop finds nothing iff no token violates the accepted
set. -/
theorem firstInvalidAbbrev_eq_none_iff (toks : List String) :
    firstInvalidAbbrev toks = none ↔ ∀ t ∈ toks, violatesAccepted t = false := by
  induction toks with
  | nil => simp [firstInvalidAbbrev]
  | cons a l ih =>
    by_cases h : violatesAccepted a = true
    · simp [firstInvalidAbbrev, h]
    · simp only [Bool.not_eq_true] at h
      simp [firstInvalidAbbrev, h, ih]

/-- A rule whose group-1 processing failed is cached unparsable. -/
theorem cacheRule_parsable_no_of_grp1 (pos : Nat) (raw : RawRule)
    (h : (cacheGroup raw.grp1).2 = false) : (cacheRule pos raw).parsable = "no" := by
  simp [cacheRule, h]

/-- A parsable cached rule always carries a parsed positive numeric
threshold: the `raw` branch of `distLtMax` is unreachable in evaluation. -/
theorem cacheRule_parsable_num (pos : Nat) (raw : RawRule)
    (h : (cacheRule pos raw).parsable = "yes") :
    ∃ q : ℚ, (cacheRule pos raw).distance = DistVal.num q ∧ 0 < q := by
  by_cases hp : parseFloat? (pyStrip raw.distance) = none
  · simp [cacheRule, hp] at h
  · obtain ⟨q, hq⟩ := Option.ne_none_iff_exists'.mp hp
    by_cases hpos : 0 < q
    · exact ⟨q, by simp [cacheRule, hq], hpos⟩
    · simp [cacheRule, hq, hpos] at h

/-- C5 (amended): a group containing a violating token marks the rule
invalid, but token processing stops at the first violating token, so exactly
the first violating token of the group is reported. -/
theorem c5_first_violation_only (pos : Nat) (raw : RawRule)
    (hviol : ∃ t ∈ groupTokens (pyStrip raw.grp1), violatesAccepted t = true) :
    (cacheRule pos raw).parsable = "no"
    ∧ reportedInvalidAbbrevs (groupTokens (pyStrip raw.grp1))
        = ((groupTokens (pyStrip raw.grp1)).filter violatesAccepted).take 1 := by
  refine ⟨?_, firstInvalidAbbrev_toList _⟩
  obtain ⟨t, ht, hv⟩ := hviol
  apply cacheRule_parsable_no_of_grp1
  by_cases hg : pyStrip raw.grp1 = ""
  · simp [cacheGroup, hg]
  · have hfi : firstInvalidAbbrev (groupTokens (pyStrip raw.grp1)) ≠ none := by
      intro h
      have hf := (firstInvalidAbbrev_eq_none_iff _).mp h t ht
      rw [hv] at hf
      cases hf
    simp [cacheGroup, hg, Option.isNone_eq_false_iff, Option.isSome_iff_ne_none, hfi]

/-- C6: a raw rule whose group-1 string is blank is cached with an empty
group and marked invalid, is never selected for evaluation, and — whatever
its distance threshold — contributes no per-rule result and no marker column
to the comprehensive table of any run. -/
theorem c6_empty_group_rule_invalid (pos : Nat) (raw : RawRule)
    (hempty : pyStrip raw.grp1 = "") :
    (cacheRule pos raw).grp1 = []
    ∧ (cacheRule pos raw).parsable = "no"
    ∧ (∀ rc : List CachedRule, cacheRule pos raw ∉ selectParsable (some rc))
    ∧ ∀ (dist : Dist3) (st : ParserState) (strc : PStructure) (m : Int) (c : String)
        (chain : Chain), lookupChain strc m c = some chain →
        (runParser dist st (some strc) m c (some [cacheRule pos raw])).1.rule_results = []
        ∧ (runParser dist st (some strc) m c (some [cacheRule pos raw])).1.parse_results
            = some (baseColumns, pairRows dist [] chain) := by
  have hno : (cacheRule pos raw).parsable = "no" :=
    cacheRule_parsable_no_of_grp1 pos raw (by simp [cacheGroup, hempty])
  refine ⟨by simp [cacheRule, cacheGroup, hempty], hno, ?_, ?_⟩
  · intro rc hmem
    simp only [selectParsable, List.mem_filter] at hmem
    rw [hno] at hmem
    simp at hmem
  · intro dist st strc m c chain hlook
    have hsel : selectParsable (some [cacheRule pos raw]) = [] := by
      simp [selectParsable, hno]
    constructor
    · simp [runParser, hlook, hsel]
    · simp [runParser, hlook, hsel]

/-- C7: a distance that does not parse marks the rule invalid, preserving the
unparsed raw text in the distance field; a distance parsing to a value `≤ 0`
marks the rule invalid with the parsed value stored.  Validation is a total
function: no fault is raised in either case. -/
theorem c7_invalid_distance_unparsable (pos : Nat) (raw : RawRule) :
    (parseFloat? (pyStrip raw.distance) = none →
      (cacheRule pos raw).parsable = "no"
      ∧ (cacheRule pos raw).distance = DistVal.raw raw.distance)
    ∧ (∀ q : ℚ, parseFloat? (pyStrip raw.distance) = some q → q ≤ 0 →
      (cacheRule pos raw).parsable = "no"
      ∧ (cacheRule pos raw).distance = DistVal.num q) := by
  constructor
  · intro h
    simp [cacheRule, h]
  · intro q h hq
    simp [cacheRule, h, not_lt.mpr hq]

/-- C8: a blank rule name is replaced by the placeholder generated from the
rule's position, and the name never influences the parsable flag. -/
theorem c8_empty_name_placeholder (pos : Nat) (raw : RawRule)
    (hname : pyStrip raw.name = "") :
    (cacheRule pos raw).name = "Rule " ++ toString (pos + 1)
    ∧ ∀ nm : String,
        (cacheRule pos { raw with name := nm }).parsable = (cacheRule pos raw).parsable := by
  constructor
  · simp [cacheRule, hname]
  · intro nm
    rfl

/-- Erasing an element that the filtering map sends to `none` does not change
the result of `filterMap`. -/
theorem filterMap_erase_of_none {α β : Type} [BEq α] [LawfulBEq α] (f : α → Option β) (a : α)
    (l : List α) (h : f a = none) : (l.erase a).filterMap f = l.filterMap f := by
  induction l with
  | nil => rfl
  | cons b l ih =>
    rw [List.erase_cons]
    by_cases hb : b = a
    · subst hb
      simp [List.filterMap_cons, h]
    · have hf : (b == a) = false := by simp [hb]
      rw [hf]
      simp only [if_false, Bool.false_eq_true]
      simp only [List.filterMap_cons]
      cases hfb : f b <;> simp [ih]

/-- Both members of an enumerated pair belong to the chain. -/
theorem mem_enumeratePairs {chain : Chain} {p : Residue × Residue}
    (h : p ∈ enumeratePairs chain) : p.1 ∈ chain ∧ p.2 ∈ chain := by
  simp only [enumeratePairs, List.mem_flatMap, List.mem_map, List.mem_filter] at h
  obtain ⟨r1, hr1, r2, ⟨hr2, _⟩, rfl⟩ := h
  exact ⟨hr1, hr2⟩

/-- Over a chain that is strictly sorted by sequence number — the canonical
residue order — the source's filtered double loop enumerates exactly the
pairs of positions `i < j`, in lexicographic order of `(i, j)`. -/
theorem enumeratePairs_eq_canonicalPairs (chain : Chain)
    (h : chain.Pairwise (fun a b => a.resid < b.resid)) :
    enumeratePairs chain = canonicalPairs chain := by
  induction chain with
  | nil => rfl
  | cons x xs ih =>
    rw [List.pairwise_cons] at h
    obtain ⟨hx, hxs⟩ := h
    simp only [enumeratePairs, canonicalPairs, List.flatMap_cons]
    have hhead : (x :: xs).filter (fun r2 => decide (x ≠ r2) && residLt x r2) = xs := by
      rw [List.filter_cons]
      have hxx : (decide (x ≠ x) && residLt x x) = false := by simp
      rw [hxx]
      simp only [Bool.false_eq_true, if_false]
      apply List.filter_eq_self.mpr
      intro y hy
      have hlt := hx y hy
      have hne : x ≠ y := fun he => absurd hlt (by rw [he]; exact lt_irrefl _)
      simp [residLt, hne, hlt]
    have htail : xs.flatMap (fun r1 =>
        ((x :: xs).filter (fun r2 => decide (r1 ≠ r2) && residLt r1 r2)).map (fun r2 => (r1, r2)))
        = enumeratePairs xs := by
      rw [show enumeratePairs xs = xs.flatMap (fun r1 =>
        (xs.filter (fun r2 => decide (r1 ≠ r2) && residLt r1 r2)).map (fun r2 => (r1, r2)))
        from rfl]
      apply List.flatMap_congr
      intro r1 hr1
      rw [List.filter_cons]
      have hfalse : (decide (r1 ≠ x) && residLt r1 x) = false := by
        have hlt := hx r1 hr1
        simp [residLt, not_lt.mpr (le_of_lt hlt)]
      rw [hfalse]
      simp
    rw [hhead, htail, ih hxs]

/-- Both members of a canonical pair belong to the list. -/
theorem mem_canonicalPairs {p : Residue × Residue} :
    ∀ {l : List Residue}, p ∈ canonicalPairs l → p.1 ∈ l ∧ p.2 ∈ l := by
  intro l
  induction l with
  | nil => simp [canonicalPairs]
  | cons x xs ih =>
    intro h
    simp only [canonicalPairs, List.mem_append, List.mem_map] at h
    rcases h with ⟨y, hy, rfl⟩ | h
    · exact ⟨List.mem_cons_self _ _, List.mem_cons_of_mem _ hy⟩
    · obtain ⟨h1, h2⟩ := ih h
      exact ⟨List.mem_cons_of_mem _ h1, List.mem_cons_of_mem _ h2⟩

/-- On a strictly sorted chain every canonical pair is strictly ascending:
no self-pairs and no reversed pairs occur. -/
theorem canonicalPairs_fst_lt (l : List Residue)
    (h : l.Pairwise (fun a b => a.resid < b.resid)) :
    ∀ p ∈ canonicalPairs l, p.1.resid < p.2.resid := by
  induction l with
  | nil => simp [canonicalPairs]
  | cons x xs ih =>
    rw [List.pairwise_cons] at h
    obtain ⟨hx, hxs⟩ := h
    intro p hp
    simp only [canonicalPairs, List.mem_append, List.mem_map] at hp
    rcases hp with ⟨y, hy, rfl⟩ | hp
    · exact hx y hy
    · exact ih hxs p hp

/-- On a strictly sorted chain the canonical pair list has no duplicates:
each unordered pair occurs at most once. -/
theorem canonicalPairs_nodup (l : List Residue)
    (h : l.Pairwise (fun a b => a.resid < b.resid)) : (canonicalPairs l).Nodup := by
  induction l with
  | nil => simp [canonicalPairs]
  | cons x xs ih =>
    rw [List.pairwise_cons] at h
    obtain ⟨hx, hxs⟩ := h
    have hnd : xs.Nodup := by
      apply List.Pairwise.imp _ hxs
      intro a b hab he
      rw [he] at hab
      exact lt_irrefl _ hab
    have hxnotin : x ∉ xs := by
      intro hin
      exact lt_irrefl _ (hx x hin)
    simp only [canonicalPairs]
    rw [List.nodup_append]
    refine ⟨?_, ih hxs, ?_⟩
    · exact hnd.map (fun a b hab => congrArg Prod.snd hab)
    · intro p hp1 hp2
      obtain ⟨y, hy, rfl⟩ := List.mem_map.mp hp1
      exact hxnotin (mem_canonicalPairs hp2).1

/-- The canonical pair list of an `n`-element list has `n·(n−1)/2` entries
(stated in doubled form to avoid natural division). -/
theorem canonicalPairs_length (l : List Residue) :
    2 * (canonicalPairs l).length = l.length * (l.length - 1) := by
  induction l with
  | nil => rfl
  | cons x xs ih =>
    simp only [canonicalPairs, List.length_append, List.length_map, List.length_cons]
    cases hn : xs.length with
    | zero =>
      rw [hn] at ih
      simp only [Nat.mul_zero, Nat.zero_mul, Nat.zero_sub] at ih
      simp only [Nat.add_sub_cancel]
      omega
    | succ k =>
      rw [hn] at ih
      simp only [Nat.succ_sub_one, Nat.succ_eq_add_one] at ih ⊢
      calc 2 * (k + 1 + (canonicalPairs xs).length)
          = 2 * (k + 1) + 2 * (canonicalPairs xs).length := by ring
        _ = 2 * (k + 1) + (k + 1) * k := by rw [ih]
        _ = (k + 1 + 1) * (k + 1) := by ring

/-- When every candidate pair has both CA atoms, no pair is skipped: the
produced rows are in one-to-one, order-preserving correspondence with the
candidate pairs, as witnessed by their residue-id columns. -/
theorem pairRowsFrom_ids (dist : Dist3) (prules : List CachedRule)
    (ps : List (Residue × Residue)) (h : ∀ p ∈ ps, p.1.ca.isSome ∧ p.2.ca.isSome) :
    (pairRowsFrom dist prules ps).map (fun row => (row.res1Id, row.res2Id))
      = ps.map (fun p => (toString p.1.resid, toString p.2.resid)) := by
  induction ps with
  | nil => rfl
  | cons p ps ih =>
    obtain ⟨h1, h2⟩ := h p (List.mem_cons_self _ _)
    obtain ⟨c1, hc1⟩ := Option.isSome_iff_exists.mp h1
    obtain ⟨c2, hc2⟩ := Option.isSome_iff_exists.mp h2
    simp only [pairRowsFrom, evaluatedPairsFrom, List.filterMap_cons, evalPair, hc1, hc2]
    simp only [List.map_cons, rowOf, List.map]
    have ih2 := ih (fun q hq => h q (List.mem_cons_of_mem _ hq))
    simp only [pairRowsFrom, evaluatedPairsFrom] at ih2
    rw [ih2]

/-- The full outcome of a successful run, shared by the claims below. -/
theorem runParser_success_shape (dist : Dist3) (st : ParserState) (strc : PStructure)
    (m : Int) (c : String) (chain : Chain) (rc : Option (List CachedRule))
    (hlook : lookupChain strc m c = some chain) :
    runParser dist st (some strc) m c rc =
      ({ parse_results := some (baseColumns ++ (selectParsable rc).map (fun r => r.name),
           pairRows dist (selectParsable rc) chain),
         rule_results := (selectParsable rc).map (ruleResultOf dist chain),
         rule_summary := ruleSummaryText ((selectParsable rc).map (ruleResultOf dist chain)) },
       true) := by
  simp [runParser, hlook]

/-- C2: over a chain strictly sorted in canonical residue order whose
residues all carry CA atoms, a run succeeds and produces exactly
`n·(n−1)/2` rows — one per unordered residue pair, without self-pairs,
duplicates or reversed duplicates, in the enumeration order induced by the
chain order. -/
theorem c2_all_pairs_exactly_once (dist : Dist3) (st : ParserState) (strc : PStructure)
    (m : Int) (c : String) (chain : Chain) (rc : Option (List CachedRule))
    (hlook : lookupChain strc m c = some chain)
    (hca : ∀ r ∈ chain, r.ca.isSome = true)
    (hsorted : chain.Pairwise (fun a b => a.resid < b.resid)) :
    (runParser dist st (some strc) m c rc).2 = true
    ∧ enumeratePairs chain = canonicalPairs chain
    ∧ (canonicalPairs chain).Nodup
    ∧ (∀ p ∈ canonicalPairs chain, p.1.resid < p.2.resid)
    ∧ ∃ rows, (runParser dist st (some strc) m c rc).1.parse_results
        = some (baseColumns ++ (selectParsable rc).map (fun r => r.name), rows)
      ∧ rows.length = chain.length * (chain.length - 1) / 2
      ∧ rows.map (fun row => (row.res1Id, row.res2Id))
          = (canonicalPairs chain).map (fun p => (toString p.1.resid, toString p.2.resid)) := by
  have heq := enumeratePairs_eq_canonicalPairs chain hsorted
  have hpairs : ∀ p ∈ enumeratePairs chain, p.1.ca.isSome = true ∧ p.2.ca.isSome = true := by
    intro p hp
    obtain ⟨h1, h2⟩ := mem_enumeratePairs hp
    exact ⟨hca _ h1, hca _ h2⟩
  have hids := pairRowsFrom_ids dist (selectParsable rc) (enumeratePairs chain) hpairs
  have hlen : (pairRows dist (selectParsable rc) chain).length
      = chain.length * (chain.length - 1) / 2 := by
    have h1 := congrArg List.length hids
    simp only [List.length_map] at h1
    have h2 := canonicalPairs_length chain
    show (pairRowsFrom dist (selectParsable rc) (enumeratePairs chain)).length = _
    rw [h1, heq]
    generalize chain.length * (chain.length - 1) = P at h2 ⊢
    omega
  rw [runParser_success_shape dist st strc m c chain rc hlook]
  refine ⟨rfl, heq, canonicalPairs_nodup chain hsorted, canonicalPairs_fst_lt chain hsorted, ?_⟩
  refine ⟨pairRows dist (selectParsable rc) chain, rfl, hlen, ?_⟩
  rw [show pairRows dist (selectParsable rc) chain
      = pairRowsFrom dist (selectParsable rc) (enumeratePairs chain) from rfl, hids, heq]

/-- C3: `cache_rules` retains every rule, valid or not, and a run evaluates
only the rules marked `parsable = "yes"`: the per-rule results correspond
exactly to the parsable rules, the comprehensive table's columns are the five
base columns plus one marker column per parsable rule, and every row carries
exactly one marker slot per parsable rule — an invalid rule contributes
nothing. -/
theorem c3_invalid_rules_excluded (raws : List RawRule) (dist : Dist3)
    (st : ParserState) (strc : PStructure) (m : Int) (c : String) (chain : Chain)
    (rc : List CachedRule) (hlook : lookupChain strc m c = some chain) :
    (cache_rules raws).length = raws.length
    ∧ (runParser dist st (some strc) m c (some rc)).2 = true
    ∧ (runParser dist st (some strc) m c (some rc)).1.rule_results.map (fun rr => rr.rule)
        = rc.filter (fun r => r.parsable == "yes")
    ∧ ∃ rows, (runParser dist st (some strc) m c (some rc)).1.parse_results
        = some (baseColumns ++ (rc.filter (fun r => r.parsable == "yes")).map (fun r => r.name),
            rows)
        ∧ ∀ row ∈ rows,
            row.markers.length = (rc.filter (fun r => r.parsable == "yes")).length := by
  rw [runParser_success_shape dist st strc m c chain (some rc) hlook]
  refine ⟨by simp [cache_rules], rfl, ?_, ?_⟩
  · show ((selectParsable (some rc)).map (ruleResultOf dist chain)).map (fun rr => rr.rule) = _
    rw [List.map_map]
    have hid : ((fun rr => rr.rule) ∘ ruleResultOf dist chain) = id := rfl
    rw [hid, List.map_id]
    rfl
  · refine ⟨pairRows dist (selectParsable (some rc)) chain, rfl, ?_⟩
    intro row hrow
    simp only [pairRows, pairRowsFrom, List.mem_map] at hrow
    obtain ⟨e, he, rfl⟩ := hrow
    simp [rowOf, selectParsable]

/-- C9: when an enumerated pair has a residue without the CA atom, the run
still succeeds and that pair is silently skipped: removing it from the
candidate enumeration leaves the produced rows unchanged, and all remaining
pairs are still evaluated into the comprehensive table. -/
theorem c9_missing_ca_pair_skipped (dist : Dist3) (st : ParserState) (strc : PStructure)
    (m : Int) (c : String) (chain : Chain) (rc : Option (List CachedRule)) (r1 r2 : Residue)
    (hlook : lookupChain strc m c = some chain)
    (hmem : (r1, r2) ∈ enumeratePairs chain)
    (hca : r1.ca = none ∨ r2.ca = none) :
    (runParser dist st (some strc) m c rc).2 = true
    ∧ pairRowsFrom dist (selectParsable rc) ((enumeratePairs chain).erase (r1, r2))
        = pairRows dist (selectParsable rc) chain
    ∧ (runParser dist st (some strc) m c rc).1.parse_results
        = some (baseColumns ++ (selectParsable rc).map (fun r => r.name),
            pairRows dist (selectParsable rc) chain) := by
  have hnone : evalPair dist (r1, r2) = none := by
    rcases hca with h | h
    · simp [evalPair, h]
    · cases hr : r1.ca <;> simp [evalPair, h, hr]
  rw [runParser_success_shape dist st strc m c chain rc hlook]
  refine ⟨rfl, ?_, rfl⟩
  unfold pairRows pairRowsFrom evaluatedPairsFrom
  rw [filterMap_erase_of_none _ _ _ hnone]

section

/- Rational arithmetic is `@[irreducible]` in the ambient library; the
witnesses below evaluate the embedding on concrete inputs, so the operations
are made locally transparent. -/
attribute [local semireducible] Rat.add Rat.mul Rat.inv Rat.sub

/-- C5 counterexample: with group 1 `"XX,YY"` both tokens are invalid and the
rule is marked invalid, but the second violating token `"YY"` is never
reported — the loop breaks at `"XX"`, so processing does not continue
through all tokens. -/
theorem c5_counterexample :
    violatesAccepted "YY" = true
    ∧ "YY" ∈ groupTokens (pyStrip exRawTwoBad.grp1)
    ∧ "YY" ∉ reportedInvalidAbbrevs (groupTokens (pyStrip exRawTwoBad.grp1))
    ∧ (cacheRule 0 exRawTwoBad).parsable = "no" := by decide

/-- Witness for the amended C5 at the rule with group 1 `"XX,YY"`. -/
theorem c5_first_violation_only_witness :
    (cacheRule 0 exRawTwoBad).parsable = "no"
    ∧ reportedInvalidAbbrevs (groupTokens (pyStrip exRawTwoBad.grp1))
        = ((groupTokens (pyStrip exRawTwoBad.grp1)).filter violatesAccepted).take 1 :=
  c5_first_violation_only 0 exRawTwoBad (by decide)

/-- Witness for C6 at the rule with blank group 1: cached invalid with empty
group, and a run over the example structure that evaluates it produces no
per-rule result. -/
theorem c6_empty_group_rule_invalid_witness :
    (cacheRule 0 exRawEmptyGrp).grp1 = []
    ∧ (cacheRule 0 exRawEmptyGrp).parsable = "no"
    ∧ (runParser exDist exPrevState (some exStructure) 0 "A"
        (some [cacheRule 0 exRawEmptyGrp])).1.rule_results = [] := by
  have h := c6_empty_group_rule_invalid 0 exRawEmptyGrp (by decide)
  exact ⟨h.1, h.2.1,
    (h.2.2.2 exDist exPrevState exStructure 0 "A" exChain (by decide)).1⟩

/-- Witness for C7 at distance `"abc"` (non-numeric, raw text preserved) and
at distance `"-1"` (parses non-positive). -/
theorem c7_invalid_distance_unparsable_witness :
    ((cacheRule 0 exRawBadDist).parsable = "no"
      ∧ (cacheRule 0 exRawBadDist).distance = DistVal.raw exRawBadDist.distance)
    ∧ ((cacheRule 0 exRawNegDist).parsable = "no"
      ∧ (cacheRule 0 exRawNegDist).distance = DistVal.num (-1)) :=
  ⟨(c7_invalid_distance_unparsable 0 exRawBadDist).1 (by decide),
   (c7_invalid_distance_unparsable 0 exRawNegDist).2 (-1) (by decide) (by norm_num)⟩

/-- Witness for C8 at the rule with blank name and position 0. -/
theorem c8_empty_name_placeholder_witness :
    (cacheRule 0 exRawNoName).name = "Rule " ++ toString (0 + 1)
    ∧ (cacheRule 0 { exRawNoName with name := "x" }).parsable
        = (cacheRule 0 exRawNoName).parsable := by
  have h := c8_empty_name_placeholder 0 exRawNoName (by decide)
  exact ⟨h.1, h.2 "x"⟩

/-- Witness for C2 at the example structure: the run succeeds and the
enumeration coincides with the duplicate-free canonical pair list. -/
theorem c2_all_pairs_exactly_once_witness :
    (runParser exDist exPrevState (some exStructure) 0 "A" (some [exRule])).2 = true
    ∧ enumeratePairs exChain = canonicalPairs exChain
    ∧ (canonicalPairs exChain).Nodup
    ∧ (∀ p ∈ canonicalPairs exChain, p.1.resid < p.2.resid) := by
  have h := c2_all_pairs_exactly_once exDist exPrevState exStructure 0 "A" exChain
    (some [exRule]) (by decide) (by decide) (by decide)
  exact ⟨h.1, h.2.1, h.2.2.1, h.2.2.2.1⟩

/-- Witness for C3 at a rule cache holding one valid and one invalid rule:
only the valid rule reaches the per-rule results. -/
theorem c3_invalid_rules_excluded_witness :
    (cache_rules [exRawTwoBad]).length = 1
    ∧ (runParser exDist exPrevState (some exStructure) 0 "A"
        (some [exRule, exRuleInvalid])).1.rule_results.map (fun rr => rr.rule)
        = [exRule, exRuleInvalid].filter (fun r => r.parsable == "yes")
    ∧ [exRule, exRuleInvalid].filter (fun r => r.parsable == "yes") = [exRule] := by
  have h := c3_invalid_rules_excluded [exRawTwoBad] exDist exPrevState exStructure 0 "A"
    exChain [exRule, exRuleInvalid] (by decide)
  exact ⟨h.1, h.2.2.1, by decide⟩

/-- Witness for C9 at the chain whose middle residue lacks the CA atom: the
run succeeds and erasing the CA-less pair from the enumeration leaves the
rows unchanged. -/
theorem c9_missing_ca_pair_skipped_witness :
    (runParser exDist exPrevState (some exStructureNoCA) 0 "A" (some [exRule])).2 = true
    ∧ pairRowsFrom exDist (selectParsable (some [exRule]))
        ((enumeratePairs exChainNoCA).erase (exRes "ALA" 1 0, exResNoCA))
        = pairRows exDist (selectParsable (some [exRule])) exChainNoCA := by
  have h := c9_missing_ca_pair_skipped exDist exPrevState exStructureNoCA 0 "A" exChainNoCA
    (some [exRule]) (exRes "ALA" 1 0) exResNoCA (by decide) (by decide) (Or.inr rfl)
  exact ⟨h.1, h.2.1⟩

end

end Prip
